import Mathlib

set_option autoImplicit false
set_option linter.unusedVariables false

/-!
Shallow embedding of the service-webman microservice core
(`service/handler.go`, `webman/webman.go`): the HTTP relay
(`Webman.Post` as seen through `doPOSTRequest`), the dispatch engine
(`executeHandler`, `batchExecuteHandler`), and the webhook ingress
(`webhookHandler` wrapped by `Webhook.handler`).

External effects (JSON marshalling, the network round trip, response-body
decoding, event emission, clock and uuid generation) are passed in as
explicit environment values; channel-based fan-in is modelled by an
arbitrary arrival permutation of the produced outcomes.
-/

namespace WebmanSvc

/-- Arbitrary decoded JSON values (Go `interface` values produced by
`encoding/json`). The service never inspects bodies, it only passes them
through, so only equality matters here. -/
inductive Json where
  | null
  | bool (b : Bool)
  | num (n : Int)
  | str (s : String)
  | arr (elems : List Json)
  | obj (fields : List (String × Json))

/-- Go struct `httpRequest` of `service/handler.go`: one relay request. -/
structure httpRequest where
  URL : String
  Body : Json

/-- Go struct `httpSuccessResponse`: statusCode (decimal string) and body. -/
structure httpSuccessResponse where
  StatusCode : String
  Body : Json

/-- Go struct `httpErrorResponse`: an error message. -/
structure httpErrorResponse where
  Message : String
  deriving DecidableEq, Repr

/-- Go struct `httpBatchRequest`: the decoded batchExecute input. -/
structure httpBatchRequest where
  Batch : List httpRequest

/-- Go struct `response` of `service/handler.go` (the channel message of
`doPOSTRequest`). Zero values of the Go struct are `""`, `Json.null`, `none`. -/
structure response where
  URL : String
  StatusCode : String
  Body : Json
  Error : Option String

/-- Environment of one `Webman.Post` call: which of its three fallible
steps (request marshalling, transport, response decode) fails, and
otherwise the received status code and decoded body. `decodeFail` keeps
the status code and whatever the decoder wrote to `out` before failing,
because the Go code returns both alongside the error. -/
inductive PostEnv where
  | marshalFail (e : String)
  | transportFail (e : String)
  | decodeFail (statusCode : Int) (written : Json) (e : String)
  | ok (statusCode : Int) (body : Json)

/-- Whether the environment makes `Webman.Post` fail. -/
def PostEnv.isFailure : PostEnv → Bool
  | .marshalFail _ => true
  | .transportFail _ => true
  | .decodeFail _ _ _ => true
  | .ok _ _ => false

/-- `Webman.Post` (webman.go): returns the status code, the value written
to `out`, and the error, mirroring `return resp.StatusCode, ...Decode(out)`.
On marshal/transport failure the returned status code is the Go zero value 0
and `out` is untouched (still the zero JSON value). -/
def webmanPost : PostEnv → Int × Json × Option String
  | .marshalFail e => (0, Json.null, some e)
  | .transportFail e => (0, Json.null, some e)
  | .decodeFail sc w e => (sc, w, some e)
  | .ok sc b => (sc, b, none)

/-- Go `fmt.Sprintf` with the `d` verb on an int. -/
def sprintfD (n : Int) : String := toString n

/-- `Service.doPOSTRequest` (handler.go): builds the `response` for one
relay call. The Go function sends the result on `responseC`; this is the
single message it sends (see `doPOSTRequestSends`). -/
def doPOSTRequest (hreq : httpRequest) (env : PostEnv) : response :=
  let r := webmanPost env
  match r.2.2 with
  | some e => { URL := hreq.URL, StatusCode := "", Body := r.2.1, Error := some e }
  | none => { URL := hreq.URL, StatusCode := sprintfD r.1, Body := r.2.1, Error := none }

/-- The sequence of messages one `doPOSTRequest` invocation sends on its
result channel, following the Go control flow literally: the error branch
sends `resp` and returns, the success branch sends `resp`. -/
def doPOSTRequestSends (hreq : httpRequest) (env : PostEnv) : List response :=
  let r := webmanPost env
  match r.2.2 with
  | some e => [{ URL := hreq.URL, StatusCode := "", Body := r.2.1, Error := some e }]
  | none => [{ URL := hreq.URL, StatusCode := sprintfD r.1, Body := r.2.1, Error := none }]

/-- The payload of a task reply. -/
inductive OutputData where
  | err (r : httpErrorResponse)
  | succ (r : httpSuccessResponse)
  | batchOut (successes : List (String × httpSuccessResponse))
             (errors : List (String × httpErrorResponse))

/-- One `req.Reply(kind, payload)` call of the task handlers. -/
structure Reply where
  kind : String
  data : OutputData

/-- `Service.executeHandler` (handler.go). `input` is the result of
`req.Get(&hreq)` (the decoded task input or the decode error string);
`env` drives the single relay call. Returns the reply the handler makes. -/
def executeHandler (input : Except String httpRequest) (env : PostEnv) : Reply :=
  match input with
  | .error e => ⟨"error", .err ⟨"err while decoding input data: " ++ e⟩⟩
  | .ok hreq =>
    let resp := doPOSTRequest hreq env
    match resp.Error with
    | some e => ⟨"error", .err ⟨"err while performing the post request: " ++ e⟩⟩
    | none => ⟨"success", .succ ⟨resp.StatusCode, resp.Body⟩⟩

/-- Go map assignment `m[k] = v` on an association list whose keys are
kept unique: overwrite the binding of `k` if present, append otherwise. -/
def insertKV {V : Type} : List (String × V) → String → V → List (String × V)
  | [], k, v => [(k, v)]
  | (k', v') :: rest, k, v =>
    if k' = k then (k, v) :: rest else (k', v') :: insertKV rest k v

/-- Go map read `m[k]` (as an option). -/
def lookupKV {V : Type} : List (String × V) → String → Option V
  | [], _ => none
  | (k', v') :: rest, k => if k' = k then some v' else lookupKV rest k

/-- The keys of an association-list map. -/
def keys {V : Type} (m : List (String × V)) : List String := m.map Prod.fst

/-- The two result maps of `httpBatchResponseBody` (handler.go). -/
structure BatchMaps where
  Successes : List (String × httpSuccessResponse)
  Errors : List (String × httpErrorResponse)

/-- One iteration of the fan-in loop of `batchExecuteHandler`: an outcome
carrying an error is recorded in the errors map, any other outcome in the
successes map, keyed by the outcome's URL. Nothing is ever removed. -/
def recordOutcome (acc : BatchMaps) (resp : response) : BatchMaps :=
  match resp.Error with
  | some e => { acc with Errors := insertKV acc.Errors resp.URL ⟨e⟩ }
  | none =>
    { acc with Successes := insertKV acc.Successes resp.URL ⟨resp.StatusCode, resp.Body⟩ }

/-- The whole fan-in loop of `batchExecuteHandler`: it receives exactly
`totalReqs` outcomes (the list `arrivals`, in completion order) and folds
them into the two maps, starting from two empty maps. -/
def batchFanIn (arrivals : List response) : BatchMaps :=
  arrivals.foldl recordOutcome ⟨[], []⟩

/-- The goroutines `batchExecuteHandler` launches: one `doPOSTRequest`
per element of the decoded batch, paired with that call's environment. -/
def launchedCalls (batch : List httpRequest) (envs : List PostEnv) : List response :=
  List.zipWith doPOSTRequest batch envs

/-- `Service.batchExecuteHandler` (handler.go). `input` is the result of
`req.Get(&hreq)`; `arrivals` is the order in which the launched calls'
outcomes are received from the shared channel. Returns the reply made. -/
def batchExecuteHandler (input : Except String httpBatchRequest)
    (arrivals : List response) : Reply :=
  match input with
  | .error e => ⟨"error", .err ⟨"err while decoding batch input data: " ++ e⟩⟩
  | .ok _ =>
    let m := batchFanIn arrivals
    ⟨"batch", .batchOut m.Successes m.Errors⟩

/-- Go struct `webhookResponse` (handler.go): the event envelope. -/
structure webhookResponse where
  Date : Int
  ID : String
  Body : Json

/-- `Service.webhookHandler` (handler.go). `decoded` is the result of
decoding the request body as JSON (`none` when the body is not valid
JSON); `now` and `uuid` are the clock and uuid generator outputs;
`emitErr` is the outcome of `EmitEvent`. Returns the list of emitted
events (name and envelope) and the error returned to the HTTP layer.
An `EmitEvent` failure is only logged: it changes neither part. -/
def webhookHandler (decoded : Option Json) (now : Int) (uuid : String)
    (emitErr : Option String) : List (String × webhookResponse) × Option String :=
  match decoded with
  | none => ([], some "json data payload expected")
  | some out => ([("onRequest", ⟨now, uuid, out⟩)], none)

/-- HTTP response written by `Webhook.handler` (webman.go): status code
and, when the wrapped handler failed, the marshalled
`errorResponse` body; `none` is an empty body. -/
structure HttpReply where
  status : Nat
  body : Option httpErrorResponse
  deriving DecidableEq, Repr

/-- `Webhook.handler` (webman.go): on handler error write status 400
(`http.StatusBadRequest`) and the JSON error envelope carrying the
error's message; otherwise write status 202 (`http.StatusAccepted`)
and no body. -/
def webhookHttpHandler (fnErr : Option String) : HttpReply :=
  match fnErr with
  | some e => { status := 400, body := some ⟨e⟩ }
  | none => { status := 202, body := none }

/-- The full inbound webhook pipeline: `Webhook.handler` wrapping
`Service.webhookHandler`. Returns the emitted events and the HTTP reply. -/
def webhookPipeline (decoded : Option Json) (now : Int) (uuid : String)
    (emitErr : Option String) : List (String × webhookResponse) × HttpReply :=
  let r := webhookHandler decoded now uuid emitErr
  (r.1, webhookHttpHandler r.2)

end WebmanSvc

namespace WebmanSvc

/-! ### Decimal formatting never yields the empty string -/

theorem toDigitsCore_len_le (b fuel n : Nat) (ds : List Char) :
    ds.length ≤ (Nat.toDigitsCore b fuel n ds).length := by
  induction fuel generalizing n ds with
  | zero => simp [Nat.toDigitsCore]
  | succ f ih =>
    unfold Nat.toDigitsCore
    simp only []
    split
    · simp
    · exact le_trans (by simp) (ih _ _)

theorem toDigits_ne_nil (b n : Nat) : Nat.toDigits b n ≠ [] := by
  unfold Nat.toDigits
  unfold Nat.toDigitsCore
  simp only []
  split
  · simp
  · intro h
    have hle := toDigitsCore_len_le b n (n / b) [(n % b).digitChar]
    rw [h] at hle
    simp at hle

theorem natRepr_ne_empty (n : Nat) : Nat.repr n ≠ "" := by
  unfold Nat.repr
  intro h
  apply toDigits_ne_nil 10 n
  have hdata : (Nat.toDigits 10 n).asString.data = "".data := by rw [h]
  simpa [List.asString] using hdata

theorem sprintfD_ne_empty (i : Int) : sprintfD i ≠ "" := by
  show Int.repr i ≠ ""
  cases i with
  | ofNat n => exact natRepr_ne_empty n
  | negSucc n =>
    intro h
    have h2 : ("-" ++ Nat.repr (n + 1)) = "" := h
    have hdata : ("-" ++ Nat.repr (n + 1)).data = "".data := by rw [h2]
    simp [String.data_append] at hdata

/-! ### Relay outcome claims -/

/-- Claim C7: every `response` built by `doPOSTRequest` carries exactly one
of the two result forms: a non-empty status code with no error, or an
error with an empty (Go zero value) status code — never both. -/
theorem relay_outcome_exclusive (hreq : httpRequest) (env : PostEnv) :
    ((doPOSTRequest hreq env).Error = none ∧ (doPOSTRequest hreq env).StatusCode ≠ "") ∨
      ((doPOSTRequest hreq env).Error ≠ none ∧ (doPOSTRequest hreq env).StatusCode = "") := by
  cases env with
  | marshalFail e => right; simp [doPOSTRequest, webmanPost]
  | transportFail e => right; simp [doPOSTRequest, webmanPost]
  | decodeFail sc w e => right; simp [doPOSTRequest, webmanPost]
  | ok sc b => left; simp [doPOSTRequest, webmanPost, sprintfD_ne_empty]

/-- Claim C6: when the HTTP response arrives and its body decodes, the
status code — whatever its value, 2xx or not — is passed through as a
decimal string in a successful outcome; an error outcome arises exactly
from the serialization, transport and response-decode failure
environments. -/
theorem relay_status_passthrough (hreq : httpRequest) :
    (∀ (sc : Int) (body : Json),
      doPOSTRequest hreq (PostEnv.ok sc body) =
        { URL := hreq.URL, StatusCode := sprintfD sc, Body := body, Error := none }) ∧
    (∀ env : PostEnv, (doPOSTRequest hreq env).Error.isSome = env.isFailure) := by
  constructor
  · intro sc body
    rfl
  · intro env
    cases env <;> rfl

/-! ### execute task handler -/

/-- Claim C5: `executeHandler` replies "error" with a message naming the
decoding failure when the task input does not decode; replies "error"
when the relay call errors; and otherwise replies "success" with the
relay outcome's status code and body. -/
theorem executeHandler_reply_spec (env : PostEnv) :
    (∀ e : String,
      executeHandler (Except.error e) env =
        ⟨"error", OutputData.err ⟨"err while decoding input data: " ++ e⟩⟩) ∧
    (∀ hreq : httpRequest,
      (∀ e : String, (doPOSTRequest hreq env).Error = some e →
        executeHandler (Except.ok hreq) env =
          ⟨"error", OutputData.err ⟨"err while performing the post request: " ++ e⟩⟩) ∧
      ((doPOSTRequest hreq env).Error = none →
        executeHandler (Except.ok hreq) env =
          ⟨"success", OutputData.succ
            ⟨(doPOSTRequest hreq env).StatusCode, (doPOSTRequest hreq env).Body⟩⟩)) := by
  refine ⟨fun e => rfl, fun hreq => ⟨fun e he => ?_, fun hn => ?_⟩⟩
  · simp [executeHandler, he]
  · simp [executeHandler, hn]

/-- Concrete instance of `executeHandler_reply_spec`: both hypotheses are
dischargeable, on a transport failure and on a 200 response. -/
theorem executeHandler_reply_spec_witness :
    executeHandler (Except.ok ⟨"http://a", Json.null⟩) (PostEnv.transportFail "refused") =
      ⟨"error", OutputData.err ⟨"err while performing the post request: " ++ "refused"⟩⟩ ∧
    executeHandler (Except.ok ⟨"http://a", Json.null⟩) (PostEnv.ok 200 Json.null) =
      ⟨"success", OutputData.succ ⟨"200", Json.null⟩⟩ := by
  constructor
  · exact ((executeHandler_reply_spec (PostEnv.transportFail "refused")).2
      ⟨"http://a", Json.null⟩).1 "refused" rfl
  · exact ((executeHandler_reply_spec (PostEnv.ok 200 Json.null)).2
      ⟨"http://a", Json.null⟩).2 rfl

/-! ### Webhook ingress claims -/

/-- Claim C3: an inbound webhook body that is not valid JSON makes the
handler fail with "json data payload expected", publishes no event, and
the HTTP layer answers 400 with the JSON error envelope carrying that
message. -/
theorem webhook_invalid_json_rejected (now : Int) (uuid : String) (emitErr : Option String) :
    webhookPipeline none now uuid emitErr =
      ([], { status := 400, body := some ⟨"json data payload expected"⟩ }) := rfl

/-- Claim C4: once the webhook body decodes, the HTTP response is 202
with an empty body, and it is identical whether event publishing
succeeded or failed. -/
theorem webhook_accepted_regardless_of_publish (j : Json) (now : Int) (uuid : String)
    (emitErr emitErr' : Option String) :
    (webhookPipeline (some j) now uuid emitErr).2 = { status := 202, body := none } ∧
    webhookPipeline (some j) now uuid emitErr = webhookPipeline (some j) now uuid emitErr' :=
  ⟨rfl, rfl⟩

/-- Claim C10: every event the webhook handler publishes is named
"onRequest". -/
theorem webhook_event_always_onRequest (decoded : Option Json) (now : Int) (uuid : String)
    (emitErr : Option String) :
    ∀ ev ∈ (webhookPipeline decoded now uuid emitErr).1, ev.1 = "onRequest" := by
  cases decoded with
  | none => simp [webhookPipeline, webhookHandler]
  | some j => simp [webhookPipeline, webhookHandler]

/-- Concrete instance of `webhook_event_always_onRequest`: the event
emitted for the decoded body `Json.null` is named "onRequest". -/
theorem webhook_event_always_onRequest_witness :
    (("onRequest", (⟨5, "id-1", Json.null⟩ : webhookResponse)) :
        String × webhookResponse).1 = "onRequest" :=
  webhook_event_always_onRequest (some Json.null) 5 "id-1" none
    ("onRequest", ⟨5, "id-1", Json.null⟩)
    (by simp [webhookPipeline, webhookHandler])

end WebmanSvc

namespace WebmanSvc

/-! ### Batch claims: empty batch and message accounting -/

/-- Claim C8: on the empty batch, no relay call is launched and the
handler replies "batch" with both maps empty. -/
theorem batchExecute_empty_batch (envs : List PostEnv) (arrivals : List response)
    (hperm : arrivals.Perm (launchedCalls [] envs)) :
    launchedCalls [] envs = [] ∧
    batchExecuteHandler (Except.ok ⟨[]⟩) arrivals =
      ⟨"batch", OutputData.batchOut [] []⟩ := by
  have hl : launchedCalls [] envs = [] := by simp [launchedCalls]
  rw [hl] at hperm
  have ha : arrivals = [] := hperm.eq_nil
  subst ha
  exact ⟨hl, rfl⟩

/-- Concrete instance of `batchExecute_empty_batch` at the empty batch
with no environments and no arrivals. -/
theorem batchExecute_empty_batch_witness :
    launchedCalls [] [] = [] ∧
    batchExecuteHandler (Except.ok ⟨[]⟩) [] = ⟨"batch", OutputData.batchOut [] []⟩ :=
  batchExecute_empty_batch [] [] (List.Perm.refl _)

/-- Claim C9: each `doPOSTRequest` invocation sends exactly one message
on the result channel (its one outcome), so a batch of N requests puts
exactly N messages on the shared channel — the number the fan-in loop
consumes. -/
theorem doPOSTRequest_sends_one (batch : List httpRequest) (envs : List PostEnv)
    (hlen : envs.length = batch.length) :
    (∀ (hreq : httpRequest) (env : PostEnv),
      doPOSTRequestSends hreq env = [doPOSTRequest hreq env] ∧
      (doPOSTRequestSends hreq env).length = 1) ∧
    (List.zipWith doPOSTRequestSends batch envs).flatten.length = batch.length := by
  have hone : ∀ (hreq : httpRequest) (env : PostEnv),
      doPOSTRequestSends hreq env = [doPOSTRequest hreq env] := by
    intro hreq env
    cases env <;> rfl
  refine ⟨fun hreq env => ⟨hone hreq env, by rw [hone hreq env]; rfl⟩, ?_⟩
  induction batch generalizing envs with
  | nil => simp
  | cons h t ih =>
    cases envs with
    | nil => simp at hlen
    | cons e es =>
      have hlen' : es.length = t.length := by simpa using hlen
      simp [List.zipWith_cons_cons, hone, ih es hlen']

/-- Concrete instance of `doPOSTRequest_sends_one`: one request, one
environment, one message on the channel. -/
theorem doPOSTRequest_sends_one_witness :
    ([PostEnv.ok 200 Json.null].length = [(⟨"http://a", Json.null⟩ : httpRequest)].length) ∧
    (List.zipWith doPOSTRequestSends [(⟨"http://a", Json.null⟩ : httpRequest)]
      [PostEnv.ok 200 Json.null]).flatten.length = 1 :=
  ⟨rfl, (doPOSTRequest_sends_one [⟨"http://a", Json.null⟩] [PostEnv.ok 200 Json.null] rfl).2⟩

end WebmanSvc

namespace WebmanSvc

/-! ### Association-list map lemmas -/

theorem lookupKV_insertKV_self {V : Type} (m : List (String × V)) (k : String) (v : V) :
    lookupKV (insertKV m k v) k = some v := by
  induction m with
  | nil => simp [insertKV, lookupKV]
  | cons p rest ih =>
    obtain ⟨k', v'⟩ := p
    by_cases h : k' = k
    · simp [insertKV, lookupKV, h]
    · simp [insertKV, lookupKV, h, ih]

theorem lookupKV_insertKV_ne {V : Type} (m : List (String × V)) (k u : String) (v : V)
    (hne : k ≠ u) : lookupKV (insertKV m k v) u = lookupKV m u := by
  induction m with
  | nil => simp [insertKV, lookupKV, hne]
  | cons p rest ih =>
    obtain ⟨k', v'⟩ := p
    by_cases h : k' = k
    · subst h
      simp [insertKV, lookupKV, hne]
    · simp [insertKV, lookupKV, h, ih]

theorem keys_insertKV {V : Type} (m : List (String × V)) (k : String) (v : V) :
    keys (insertKV m k v) = if k ∈ keys m then keys m else keys m ++ [k] := by
  induction m with
  | nil => simp [insertKV, keys]
  | cons p rest ih =>
    obtain ⟨k', v'⟩ := p
    by_cases h : k' = k
    · subst h
      simp [insertKV, keys]
    · have hcons : keys ((k', v') :: rest) = k' :: keys rest := rfl
      have hins : keys (insertKV ((k', v') :: rest) k v) = k' :: keys (insertKV rest k v) := by
        simp [insertKV, h, keys]
      rw [hins, hcons, ih]
      have hmemc : (k ∈ k' :: keys rest) ↔ (k ∈ keys rest) := by
        simp [List.mem_cons, Ne.symm h]
      by_cases hm : k ∈ keys rest
      · rw [if_pos hm, if_pos (hmemc.mpr hm)]
      · rw [if_neg hm, if_neg (fun hc => hm (hmemc.mp hc)), List.cons_append]

theorem keys_toFinset_insertKV {V : Type} (m : List (String × V)) (k : String) (v : V) :
    (keys (insertKV m k v)).toFinset = insert k (keys m).toFinset := by
  rw [keys_insertKV]
  by_cases h : k ∈ keys m
  · simp [h, Finset.insert_eq_self.mpr (List.mem_toFinset.mpr h)]
  · simp [h, List.toFinset_append, Finset.union_comm, Finset.insert_eq]

theorem nodup_keys_insertKV {V : Type} (m : List (String × V)) (k : String) (v : V)
    (hnd : (keys m).Nodup) : (keys (insertKV m k v)).Nodup := by
  rw [keys_insertKV]
  by_cases h : k ∈ keys m
  · simpa [h] using hnd
  · simp [h, List.nodup_append, hnd]

theorem length_eq_keys_length {V : Type} (m : List (String × V)) :
    m.length = (keys m).length := by
  simp [keys]

theorem mem_keys_iff_lookupKV {V : Type} (m : List (String × V)) (u : String) :
    u ∈ keys m ↔ (lookupKV m u).isSome := by
  induction m with
  | nil => simp [keys, lookupKV]
  | cons p rest ih =>
    obtain ⟨k', v'⟩ := p
    show u ∈ k' :: keys rest ↔ _
    by_cases h : k' = u
    · simp [lookupKV, h]
    · simp [lookupKV, List.mem_cons, h, Ne.symm h, ih]

end WebmanSvc

namespace WebmanSvc

/-! ### URLs of batch outcomes -/

/-- URLs of the outcomes that carried no error. -/
def successURLs (l : List response) : List String :=
  (l.filter (fun r => r.Error.isNone)).map response.URL

/-- URLs of the outcomes that carried an error. -/
def errorURLs (l : List response) : List String :=
  (l.filter (fun r => r.Error.isSome)).map response.URL

theorem mem_successURLs (l : List response) (u : String) :
    u ∈ successURLs l ↔ ∃ r ∈ l, r.Error = none ∧ r.URL = u := by
  simp [successURLs, List.mem_map, List.mem_filter, Option.isNone_iff_eq_none, and_assoc]

theorem mem_errorURLs (l : List response) (u : String) :
    u ∈ errorURLs l ↔ ∃ r ∈ l, r.Error.isSome ∧ r.URL = u := by
  simp [errorURLs, List.mem_map, List.mem_filter, and_assoc]

theorem urls_partition (l : List response) :
    (successURLs l).toFinset ∪ (errorURLs l).toFinset = (l.map response.URL).toFinset := by
  induction l with
  | nil => simp [successURLs, errorURLs]
  | cons r t ih =>
    cases hE : r.Error with
    | none =>
      have hs : successURLs (r :: t) = r.URL :: successURLs t := by
        simp [successURLs, List.filter_cons, hE]
      have he : errorURLs (r :: t) = errorURLs t := by
        simp [errorURLs, List.filter_cons, hE]
      simp [hs, he, Finset.insert_union, ih]
    | some e =>
      have hs : successURLs (r :: t) = successURLs t := by
        simp [successURLs, List.filter_cons, hE]
      have he : errorURLs (r :: t) = r.URL :: errorURLs t := by
        simp [errorURLs, List.filter_cons, hE]
      simp [hs, he, Finset.union_insert, ih]

/-! ### Fan-in loop characterization -/

theorem foldl_recordOutcome_successes_keys (l : List response) (acc : BatchMaps) :
    (keys (l.foldl recordOutcome acc).Successes).toFinset =
      (keys acc.Successes).toFinset ∪ (successURLs l).toFinset := by
  induction l generalizing acc with
  | nil => simp [successURLs]
  | cons r t ih =>
    rw [List.foldl_cons, ih]
    cases hE : r.Error with
    | none =>
      have hs : successURLs (r :: t) = r.URL :: successURLs t := by
        simp [successURLs, List.filter_cons, hE]
      have hrec : (recordOutcome acc r).Successes =
          insertKV acc.Successes r.URL ⟨r.StatusCode, r.Body⟩ := by
        simp [recordOutcome, hE]
      rw [hrec, keys_toFinset_insertKV, hs]
      simp [Finset.insert_union, Finset.union_insert]
    | some e =>
      have hs : successURLs (r :: t) = successURLs t := by
        simp [successURLs, List.filter_cons, hE]
      have hrec : (recordOutcome acc r).Successes = acc.Successes := by
        simp [recordOutcome, hE]
      rw [hrec, hs]

theorem foldl_recordOutcome_errors_keys (l : List response) (acc : BatchMaps) :
    (keys (l.foldl recordOutcome acc).Errors).toFinset =
      (keys acc.Errors).toFinset ∪ (errorURLs l).toFinset := by
  induction l generalizing acc with
  | nil => simp [errorURLs]
  | cons r t ih =>
    rw [List.foldl_cons, ih]
    cases hE : r.Error with
    | some e =>
      have hs : errorURLs (r :: t) = r.URL :: errorURLs t := by
        simp [errorURLs, List.filter_cons, hE]
      have hrec : (recordOutcome acc r).Errors = insertKV acc.Errors r.URL ⟨e⟩ := by
        simp [recordOutcome, hE]
      rw [hrec, keys_toFinset_insertKV, hs]
      simp [Finset.insert_union, Finset.union_insert]
    | none =>
      have hs : errorURLs (r :: t) = errorURLs t := by
        simp [errorURLs, List.filter_cons, hE]
      have hrec : (recordOutcome acc r).Errors = acc.Errors := by
        simp [recordOutcome, hE]
      rw [hrec, hs]

theorem foldl_recordOutcome_nodup (l : List response) (acc : BatchMaps)
    (hs : (keys acc.Successes).Nodup) (he : (keys acc.Errors).Nodup) :
    (keys (l.foldl recordOutcome acc).Successes).Nodup ∧
      (keys (l.foldl recordOutcome acc).Errors).Nodup := by
  induction l generalizing acc with
  | nil => exact ⟨hs, he⟩
  | cons r t ih =>
    rw [List.foldl_cons]
    apply ih
    · cases hE : r.Error with
      | none =>
        have hrec : (recordOutcome acc r).Successes =
            insertKV acc.Successes r.URL ⟨r.StatusCode, r.Body⟩ := by
          simp [recordOutcome, hE]
        rw [hrec]
        exact nodup_keys_insertKV _ _ _ hs
      | some e =>
        have hrec : (recordOutcome acc r).Successes = acc.Successes := by
          simp [recordOutcome, hE]
        rw [hrec]; exact hs
    · cases hE : r.Error with
      | some e =>
        have hrec : (recordOutcome acc r).Errors = insertKV acc.Errors r.URL ⟨e⟩ := by
          simp [recordOutcome, hE]
        rw [hrec]
        exact nodup_keys_insertKV _ _ _ he
      | none =>
        have hrec : (recordOutcome acc r).Errors = acc.Errors := by
          simp [recordOutcome, hE]
        rw [hrec]; exact he

theorem doPOSTRequest_URL (hreq : httpRequest) (env : PostEnv) :
    (doPOSTRequest hreq env).URL = hreq.URL := by
  cases env <;> rfl

theorem map_URL_launchedCalls (batch : List httpRequest) (envs : List PostEnv)
    (hlen : envs.length = batch.length) :
    (launchedCalls batch envs).map response.URL = batch.map httpRequest.URL := by
  induction batch generalizing envs with
  | nil => simp [launchedCalls]
  | cons h t ih =>
    cases envs with
    | nil => simp at hlen
    | cons e es =>
      have hlen' : es.length = t.length := by simpa using hlen
      have := ih es hlen'
      simp only [launchedCalls, List.zipWith_cons_cons, List.map_cons] at this ⊢
      rw [doPOSTRequest_URL, this]

end WebmanSvc

namespace WebmanSvc

/-- Claim C1 (amended): whenever no URL of the batch receives both a
success outcome and an error outcome — in particular whenever the batch
URLs are pairwise distinct — each URL appears in at most one of the two
maps of the BatchResult, and the combined number of entries in successes
plus errors equals the number of distinct URLs in the batch. (Without
that proviso the code puts a URL in both maps; see
`batch_url_in_both_maps_counterexample`.) -/
theorem batch_maps_partition_distinct_urls (batch : List httpRequest) (envs : List PostEnv)
    (arrivals : List response)
    (hlen : envs.length = batch.length)
    (hperm : arrivals.Perm (launchedCalls batch envs))
    (hnomix : ∀ r ∈ arrivals, ∀ r' ∈ arrivals, r.URL = r'.URL →
      (r.Error = none ↔ r'.Error = none)) :
    (∀ u, ¬(u ∈ keys (batchFanIn arrivals).Successes ∧
            u ∈ keys (batchFanIn arrivals).Errors)) ∧
    (batchFanIn arrivals).Successes.length + (batchFanIn arrivals).Errors.length
      = (batch.map httpRequest.URL).toFinset.card := by
  have hSkeys : (keys (batchFanIn arrivals).Successes).toFinset
      = (successURLs arrivals).toFinset := by
    have h := foldl_recordOutcome_successes_keys arrivals ⟨[], []⟩
    simpa [batchFanIn, keys] using h
  have hEkeys : (keys (batchFanIn arrivals).Errors).toFinset
      = (errorURLs arrivals).toFinset := by
    have h := foldl_recordOutcome_errors_keys arrivals ⟨[], []⟩
    simpa [batchFanIn, keys] using h
  have hdisj : Disjoint ((successURLs arrivals).toFinset) ((errorURLs arrivals).toFinset) := by
    rw [Finset.disjoint_left]
    intro u hus hue
    rw [List.mem_toFinset, mem_successURLs] at hus
    rw [List.mem_toFinset, mem_errorURLs] at hue
    obtain ⟨r, hr, hrE, hrU⟩ := hus
    obtain ⟨r', hr', hr'E, hr'U⟩ := hue
    have hnone : r'.Error = none :=
      (hnomix r hr r' hr' (by rw [hrU, hr'U])).mp hrE
    rw [hnone] at hr'E
    simp at hr'E
  constructor
  · intro u hu
    have h1 : u ∈ (successURLs arrivals).toFinset := by
      rw [← hSkeys]; exact List.mem_toFinset.mpr hu.1
    have h2 : u ∈ (errorURLs arrivals).toFinset := by
      rw [← hEkeys]; exact List.mem_toFinset.mpr hu.2
    exact Finset.disjoint_left.mp hdisj h1 h2
  · have hnd := foldl_recordOutcome_nodup arrivals ⟨[], []⟩ (by simp [keys]) (by simp [keys])
    have hnd1 : (keys (batchFanIn arrivals).Successes).Nodup := hnd.1
    have hnd2 : (keys (batchFanIn arrivals).Errors).Nodup := hnd.2
    have h1 : (batchFanIn arrivals).Successes.length = (successURLs arrivals).toFinset.card := by
      rw [length_eq_keys_length, ← List.toFinset_card_of_nodup hnd1, hSkeys]
    have h2 : (batchFanIn arrivals).Errors.length = (errorURLs arrivals).toFinset.card := by
      rw [length_eq_keys_length, ← List.toFinset_card_of_nodup hnd2, hEkeys]
    rw [h1, h2, ← Finset.card_union_of_disjoint hdisj, urls_partition]
    have hmp : (arrivals.map response.URL).Perm
        ((launchedCalls batch envs).map response.URL) := hperm.map _
    rw [List.toFinset_eq_of_perm _ _ hmp, map_URL_launchedCalls batch envs hlen]

/-- Concrete instance of `batch_maps_partition_distinct_urls`: two
distinct URLs, one succeeding and one failing, end up one per map and
the combined size is 2. -/
theorem batch_maps_partition_distinct_urls_witness :
    (∀ u, ¬(u ∈ keys (batchFanIn (launchedCalls
        [⟨"http://a", Json.null⟩, ⟨"http://b", Json.null⟩]
        [PostEnv.ok 200 Json.null, PostEnv.transportFail "refused"])).Successes ∧
      u ∈ keys (batchFanIn (launchedCalls
        [⟨"http://a", Json.null⟩, ⟨"http://b", Json.null⟩]
        [PostEnv.ok 200 Json.null, PostEnv.transportFail "refused"])).Errors)) ∧
    (batchFanIn (launchedCalls
        [⟨"http://a", Json.null⟩, ⟨"http://b", Json.null⟩]
        [PostEnv.ok 200 Json.null, PostEnv.transportFail "refused"])).Successes.length +
    (batchFanIn (launchedCalls
        [⟨"http://a", Json.null⟩, ⟨"http://b", Json.null⟩]
        [PostEnv.ok 200 Json.null, PostEnv.transportFail "refused"])).Errors.length
      = (([⟨"http://a", Json.null⟩, ⟨"http://b", Json.null⟩] :
          List httpRequest).map httpRequest.URL).toFinset.card :=
  batch_maps_partition_distinct_urls
    [⟨"http://a", Json.null⟩, ⟨"http://b", Json.null⟩]
    [PostEnv.ok 200 Json.null, PostEnv.transportFail "refused"]
    (launchedCalls [⟨"http://a", Json.null⟩, ⟨"http://b", Json.null⟩]
      [PostEnv.ok 200 Json.null, PostEnv.transportFail "refused"])
    rfl (List.Perm.refl _) (by decide)

/-- Claim C1 as frozen is false on the code: with the batch
[`http://u`, `http://u`] where the first call succeeds with 200 and the
second fails in transport, the URL `http://u` ends up in both maps and
successes+errors has 2 entries while the batch has 1 distinct URL. -/
theorem batch_url_in_both_maps_counterexample :
    ¬((∀ u ∈ ([⟨"http://u", Json.null⟩, ⟨"http://u", Json.null⟩] :
          List httpRequest).map httpRequest.URL,
        ¬(u ∈ keys (batchFanIn (launchedCalls
            [⟨"http://u", Json.null⟩, ⟨"http://u", Json.null⟩]
            [PostEnv.ok 200 Json.null, PostEnv.transportFail "refused"])).Successes ∧
          u ∈ keys (batchFanIn (launchedCalls
            [⟨"http://u", Json.null⟩, ⟨"http://u", Json.null⟩]
            [PostEnv.ok 200 Json.null, PostEnv.transportFail "refused"])).Errors)) ∧
      (batchFanIn (launchedCalls
          [⟨"http://u", Json.null⟩, ⟨"http://u", Json.null⟩]
          [PostEnv.ok 200 Json.null, PostEnv.transportFail "refused"])).Successes.length +
      (batchFanIn (launchedCalls
          [⟨"http://u", Json.null⟩, ⟨"http://u", Json.null⟩]
          [PostEnv.ok 200 Json.null, PostEnv.transportFail "refused"])).Errors.length
        = (([⟨"http://u", Json.null⟩, ⟨"http://u", Json.null⟩] :
            List httpRequest).map httpRequest.URL).toFinset.card) := by
  intro h
  have h2 := h.2
  have hL : (batchFanIn (launchedCalls
      [⟨"http://u", Json.null⟩, ⟨"http://u", Json.null⟩]
      [PostEnv.ok 200 Json.null, PostEnv.transportFail "refused"])).Successes.length +
    (batchFanIn (launchedCalls
      [⟨"http://u", Json.null⟩, ⟨"http://u", Json.null⟩]
      [PostEnv.ok 200 Json.null, PostEnv.transportFail "refused"])).Errors.length = 2 := rfl
  rw [hL] at h2
  have hR : (([⟨"http://u", Json.null⟩, ⟨"http://u", Json.null⟩] :
      List httpRequest).map httpRequest.URL).toFinset.card = 1 := rfl
  rw [hR] at h2
  exact absurd h2 (by decide)

end WebmanSvc

namespace WebmanSvc

/-! ### Last-writer characterization of the fan-in maps -/

/-- The last (in arrival order) error outcome for URL `u`. -/
def lastErrorFor (l : List response) (u : String) : Option response :=
  l.reverse.find? (fun r => r.Error.isSome && r.URL == u)

/-- The last (in arrival order) success outcome for URL `u`. -/
def lastSuccessFor (l : List response) (u : String) : Option response :=
  l.reverse.find? (fun r => r.Error.isNone && r.URL == u)

/-- The message of an error outcome. -/
def errMsg (r : response) : String := r.Error.getD ""

theorem batchFanIn_append_singleton (l : List response) (r : response) :
    batchFanIn (l ++ [r]) = recordOutcome (batchFanIn l) r := by
  simp [batchFanIn, List.foldl_append]

theorem lookupKV_batchFanIn_errors (l : List response) (u : String) :
    lookupKV (batchFanIn l).Errors u =
      (lastErrorFor l u).map (fun r => (⟨errMsg r⟩ : httpErrorResponse)) := by
  induction l using List.reverseRecOn with
  | nil => rfl
  | append_singleton t r ih =>
    rw [batchFanIn_append_singleton]
    have hrev : (t ++ [r]).reverse = r :: t.reverse := by simp
    cases hE : r.Error with
    | some e =>
      by_cases hu : r.URL = u
      · have hlast : lastErrorFor (t ++ [r]) u = some r := by
          rw [lastErrorFor, hrev, List.find?_cons_of_pos]
          simp [hE, hu]
        have hrec : (recordOutcome (batchFanIn t) r).Errors =
            insertKV (batchFanIn t).Errors r.URL ⟨e⟩ := by
          simp [recordOutcome, hE]
        rw [hrec, hlast, hu, lookupKV_insertKV_self]
        simp [errMsg, hE]
      · have hlast : lastErrorFor (t ++ [r]) u = lastErrorFor t u := by
          rw [lastErrorFor, hrev, List.find?_cons_of_neg, lastErrorFor]
          simp [hu]
        have hrec : (recordOutcome (batchFanIn t) r).Errors =
            insertKV (batchFanIn t).Errors r.URL ⟨e⟩ := by
          simp [recordOutcome, hE]
        rw [hrec, hlast, lookupKV_insertKV_ne _ _ _ _ hu, ih]
    | none =>
      have hlast : lastErrorFor (t ++ [r]) u = lastErrorFor t u := by
        rw [lastErrorFor, hrev, List.find?_cons_of_neg, lastErrorFor]
        simp [hE]
      have hrec : (recordOutcome (batchFanIn t) r).Errors = (batchFanIn t).Errors := by
        simp [recordOutcome, hE]
      rw [hrec, hlast, ih]

theorem lookupKV_batchFanIn_successes (l : List response) (u : String) :
    lookupKV (batchFanIn l).Successes u =
      (lastSuccessFor l u).map
        (fun r => (⟨r.StatusCode, r.Body⟩ : httpSuccessResponse)) := by
  induction l using List.reverseRecOn with
  | nil => rfl
  | append_singleton t r ih =>
    rw [batchFanIn_append_singleton]
    have hrev : (t ++ [r]).reverse = r :: t.reverse := by simp
    cases hE : r.Error with
    | none =>
      by_cases hu : r.URL = u
      · have hlast : lastSuccessFor (t ++ [r]) u = some r := by
          rw [lastSuccessFor, hrev, List.find?_cons_of_pos]
          simp [hE, hu]
        have hrec : (recordOutcome (batchFanIn t) r).Successes =
            insertKV (batchFanIn t).Successes r.URL ⟨r.StatusCode, r.Body⟩ := by
          simp [recordOutcome, hE]
        rw [hrec, hlast, hu, lookupKV_insertKV_self]
        rfl
      · have hlast : lastSuccessFor (t ++ [r]) u = lastSuccessFor t u := by
          rw [lastSuccessFor, hrev, List.find?_cons_of_neg, lastSuccessFor]
          simp [hu]
        have hrec : (recordOutcome (batchFanIn t) r).Successes =
            insertKV (batchFanIn t).Successes r.URL ⟨r.StatusCode, r.Body⟩ := by
          simp [recordOutcome, hE]
        rw [hrec, hlast, lookupKV_insertKV_ne _ _ _ _ hu, ih]
    | some e =>
      have hlast : lastSuccessFor (t ++ [r]) u = lastSuccessFor t u := by
        rw [lastSuccessFor, hrev, List.find?_cons_of_neg, lastSuccessFor]
        simp [hE]
      have hrec : (recordOutcome (batchFanIn t) r).Successes =
          (batchFanIn t).Successes := by
        simp [recordOutcome, hE]
      rw [hrec, hlast, ih]

theorem lastErrorFor_isSome_of_mem (l : List response) (r : response)
    (hr : r ∈ l) (hE : r.Error.isSome) : (lastErrorFor l r.URL).isSome := by
  rw [lastErrorFor, List.find?_isSome]
  exact ⟨r, List.mem_reverse.mpr hr, by simp [hE]⟩

theorem lastSuccessFor_isSome_of_mem (l : List response) (r : response)
    (hr : r ∈ l) (hE : r.Error = none) : (lastSuccessFor l r.URL).isSome := by
  rw [lastSuccessFor, List.find?_isSome]
  exact ⟨r, List.mem_reverse.mpr hr, by simp [hE]⟩

end WebmanSvc

namespace WebmanSvc

/-- Claim C2 (amended): `batchExecute` consumes exactly N outcomes before
replying with the two maps; every outcome carrying an error leaves an
entry in the errors map under its URL, every other outcome an entry in
the successes map under its URL — an error in one call never blocks
another call's outcome from being recorded. The entry under a URL holds
the data of the last outcome of that kind to arrive for that URL (the
outcome's own `message` resp. `statusCode`/`body` whenever no later
outcome of the same kind shares its URL — in particular when the batch
URLs are distinct); see `batch_overwritten_outcome_counterexample` for
why the original per-outcome wording fails on duplicate URLs. -/
theorem batch_records_every_outcome (batch : List httpRequest) (envs : List PostEnv)
    (arrivals : List response)
    (hlen : envs.length = batch.length)
    (hperm : arrivals.Perm (launchedCalls batch envs)) :
    arrivals.length = batch.length ∧
    batchExecuteHandler (Except.ok ⟨batch⟩) arrivals =
      ⟨"batch", OutputData.batchOut (batchFanIn arrivals).Successes
        (batchFanIn arrivals).Errors⟩ ∧
    (∀ u, lookupKV (batchFanIn arrivals).Errors u =
      (lastErrorFor arrivals u).map (fun r => (⟨errMsg r⟩ : httpErrorResponse))) ∧
    (∀ u, lookupKV (batchFanIn arrivals).Successes u =
      (lastSuccessFor arrivals u).map
        (fun r => (⟨r.StatusCode, r.Body⟩ : httpSuccessResponse))) ∧
    (∀ r ∈ arrivals,
      (r.Error.isSome → (lookupKV (batchFanIn arrivals).Errors r.URL).isSome) ∧
      (r.Error = none → (lookupKV (batchFanIn arrivals).Successes r.URL).isSome)) := by
  refine ⟨?_, rfl, fun u => lookupKV_batchFanIn_errors arrivals u,
    fun u => lookupKV_batchFanIn_successes arrivals u, fun r hr => ⟨fun hE => ?_, fun hE => ?_⟩⟩
  · rw [hperm.length_eq]
    simp [launchedCalls, List.length_zipWith, hlen]
  · rw [lookupKV_batchFanIn_errors]
    simpa using lastErrorFor_isSome_of_mem arrivals r hr hE
  · rw [lookupKV_batchFanIn_successes]
    simpa using lastSuccessFor_isSome_of_mem arrivals r hr hE

/-- Concrete instance of `batch_records_every_outcome`: a two-request
batch, one success and one transport failure, arriving in launch order. -/
theorem batch_records_every_outcome_witness :
    ([PostEnv.ok 200 Json.null, PostEnv.transportFail "refused"].length
      = [(⟨"http://a", Json.null⟩ : httpRequest), ⟨"http://b", Json.null⟩].length) ∧
    (launchedCalls [⟨"http://a", Json.null⟩, ⟨"http://b", Json.null⟩]
        [PostEnv.ok 200 Json.null, PostEnv.transportFail "refused"]).length
      = ([(⟨"http://a", Json.null⟩ : httpRequest), ⟨"http://b", Json.null⟩] :
          List httpRequest).length ∧
    batchExecuteHandler
        (Except.ok ⟨[⟨"http://a", Json.null⟩, ⟨"http://b", Json.null⟩]⟩)
        (launchedCalls [⟨"http://a", Json.null⟩, ⟨"http://b", Json.null⟩]
          [PostEnv.ok 200 Json.null, PostEnv.transportFail "refused"]) =
      ⟨"batch", OutputData.batchOut
        (batchFanIn (launchedCalls [⟨"http://a", Json.null⟩, ⟨"http://b", Json.null⟩]
          [PostEnv.ok 200 Json.null, PostEnv.transportFail "refused"])).Successes
        (batchFanIn (launchedCalls [⟨"http://a", Json.null⟩, ⟨"http://b", Json.null⟩]
          [PostEnv.ok 200 Json.null, PostEnv.transportFail "refused"])).Errors⟩ ∧
    (∀ u, lookupKV (batchFanIn (launchedCalls
        [⟨"http://a", Json.null⟩, ⟨"http://b", Json.null⟩]
        [PostEnv.ok 200 Json.null, PostEnv.transportFail "refused"])).Errors u =
      (lastErrorFor (launchedCalls [⟨"http://a", Json.null⟩, ⟨"http://b", Json.null⟩]
        [PostEnv.ok 200 Json.null, PostEnv.transportFail "refused"]) u).map
        (fun r => (⟨errMsg r⟩ : httpErrorResponse))) := by
  have h := batch_records_every_outcome
    [⟨"http://a", Json.null⟩, ⟨"http://b", Json.null⟩]
    [PostEnv.ok 200 Json.null, PostEnv.transportFail "refused"]
    (launchedCalls [⟨"http://a", Json.null⟩, ⟨"http://b", Json.null⟩]
      [PostEnv.ok 200 Json.null, PostEnv.transportFail "refused"])
    rfl (List.Perm.refl _)
  exact ⟨rfl, h.1, h.2.1, h.2.2.1⟩

/-- Claim C2 as frozen is false on the code: in the batch
[`http://u`, `http://u`] where the first call yields 200 and the second
404, the final successes map does not record the first outcome's
`{statusCode, body}` under its URL — the later outcome overwrote it. -/
theorem batch_overwritten_outcome_counterexample :
    ¬(∀ r ∈ launchedCalls [⟨"http://u", Json.null⟩, ⟨"http://u", Json.null⟩]
          [PostEnv.ok 200 Json.null, PostEnv.ok 404 Json.null],
        r.Error = none →
        lookupKV (batchFanIn (launchedCalls
            [⟨"http://u", Json.null⟩, ⟨"http://u", Json.null⟩]
            [PostEnv.ok 200 Json.null, PostEnv.ok 404 Json.null])).Successes r.URL
          = some ⟨r.StatusCode, r.Body⟩) := by
  intro h
  have h0 := h (doPOSTRequest ⟨"http://u", Json.null⟩ (PostEnv.ok 200 Json.null))
    (by simp [launchedCalls]) rfl
  have h3 : ("404" : String) = "200" :=
    congrArg (fun o => (Option.map httpSuccessResponse.StatusCode o).getD "") h0
  exact absurd h3 (by decide)

end WebmanSvc
